import Mathlib

/-!
Shallow embedding of `leak_tracker.c`, a diagnostic allocator shim.

The C file keeps two global linked lists (active allocations, freed
pointers) and four `size_t` counters.  We embed the tracker state as a
Lean structure, pointers as natural numbers (`0` plays the role of
`NULL`), and process memory as a byte heap `Nat → Nat`.  The underlying
allocator (`malloc` / `realloc` of the C library) is external to the
repository; each operation therefore takes the allocator's answers as
explicit oracle arguments: the raw address returned by `malloc`
(`Option Nat`, `none` meaning out of memory), whether the tracker's own
metadata allocations succeed (`Bool`), and the address returned by
`realloc`.  Diagnostics printed with `fprintf(stderr, ...)` are embedded
as a list of `Diag` values, and every call of the underlying `free` on a
memory region is recorded in a `sysFrees` list (frees of the tracker's
own metadata nodes have no modelled address and are not listed).
-/

/-- Sentinel width in bytes, `SENTINEL_SIZE` in the C source. -/
def SENTINEL_SIZE : Nat := 8

/-- The fixed guard pattern `SENTINEL_PATTERN` from the C source. -/
def SENTINEL_PATTERN : List Nat := [0xDE, 0xAD, 0xC0, 0xDE, 0xDE, 0xAD, 0xC0, 0xDE]

/-- Largest value of the C `size_t` type, `(size_t)(-1)` in `debug_calloc`. -/
def SIZE_MAX : Nat := 2 ^ 64 - 1

/-- Byte-addressed process memory. -/
abbrev Heap := Nat → Nat

/-- Write a list of bytes at consecutive addresses. -/
def writeBytes : Heap → Nat → List Nat → Heap
  | h, _, [] => h
  | h, addr, b :: bs => writeBytes (fun a => if a = addr then b else h a) (addr + 1) bs

/-- Read `n` consecutive bytes starting at `addr`. -/
def readBytes (h : Heap) (addr n : Nat) : List Nat :=
  (List.range n).map (fun i => h (addr + i))

/-- The C library `memset(addr, val, n)`. -/
def memset (h : Heap) (addr val n : Nat) : Heap :=
  fun a => if addr ≤ a ∧ a < addr + n then val else h a

/-- One node of the active-allocation linked list (`struct Allocation`). -/
structure Allocation where
  realPtr : Nat
  userPtr : Nat
  requestedSize : Nat
  totalSize : Nat
  file : String
  line : Int
deriving DecidableEq

/-- The tracker's global mutable state: the two ledgers (`g_allocations`,
`g_freed`) and the four statistics counters. -/
structure TrackerState where
  allocations : List Allocation
  freed : List Nat
  totalAllocated : Nat
  currentAllocated : Nat
  peakAllocated : Nat
  allocationCount : Nat
deriving DecidableEq

/-- The state at program start: both ledgers empty, all counters zero. -/
def initState : TrackerState :=
  { allocations := []
    freed := []
    totalAllocated := 0
    currentAllocated := 0
    peakAllocated := 0
    allocationCount := 0 }

/-- The `MemStats` snapshot structure of `leak_tracker.h`. -/
structure MemStats where
  totalAllocated : Nat
  currentAllocated : Nat
  peakAllocated : Nat
  allocationCount : Nat
deriving DecidableEq

/-- The `get_memory_stats` snapshot of the four counters. -/
def get_memory_stats (st : TrackerState) : MemStats :=
  { totalAllocated := st.totalAllocated
    currentAllocated := st.currentAllocated
    peakAllocated := st.peakAllocated
    allocationCount := st.allocationCount }

/-- One diagnostic message sent to `stderr` by the C code. -/
inductive Diag where
  | doubleFree (ptr : Nat) (file : String) (line : Int)
  | unknownFree (ptr : Nat) (file : String) (line : Int)
  | unknownRealloc (ptr : Nat) (file : String) (line : Int)
  | callocOverflow (file : String) (line : Int)
  | frontSentinelCorrupt (ptr : Nat)
  | backSentinelCorrupt (ptr : Nat)
deriving DecidableEq

/-- Result of one tracker operation: the value returned to the caller
(`none` encodes `NULL`, and also the `void` return of `debug_free`), the
new tracker state, the new heap, the diagnostics emitted, and the region
addresses passed to the underlying `free`. -/
structure OpResult where
  ret : Option Nat
  state : TrackerState
  heap : Heap
  diags : List Diag
  sysFrees : List Nat

/-- Answers of the external allocator consumed by `debug_realloc`
(which may take the `debug_malloc` or `debug_free` path). -/
structure SysOracle where
  sysPtr : Option Nat
  nodeOk : Bool
  freedNodeOk : Bool
  sysRealloc : Option Nat

/-- The C helper `remove_from_freed`: unlink the first matching node. -/
def remove_from_freed : List Nat → Nat → List Nat
  | [], _ => []
  | x :: rest, p => if x = p then rest else x :: remove_from_freed rest p

/-- The C helper `was_pointer_freed`: linear scan of the freed list. -/
def was_pointer_freed : List Nat → Nat → Bool
  | [], _ => false
  | x :: rest, p => if x = p then true else was_pointer_freed rest p

/-- The C helper `find_allocation`: first record whose `userPtr` matches. -/
def find_allocation : List Allocation → Nat → Option Allocation
  | [], _ => none
  | a :: rest, p => if a.userPtr = p then some a else find_allocation rest p

/-- Unlinking of the found node done inline in `debug_free` via `prev`. -/
def remove_allocation : List Allocation → Nat → List Allocation
  | [], _ => []
  | a :: rest, p => if a.userPtr = p then rest else a :: remove_allocation rest p

/-- In-place update of the found node done inline in `debug_realloc`. -/
def update_allocation : List Allocation → Nat → Allocation → List Allocation
  | [], _, _ => []
  | a :: rest, p, b => if a.userPtr = p then b :: rest else a :: update_allocation rest p b

/-- The C helper `write_sentinels`: guard pattern at both ends of the
padded region. -/
def write_sentinels (h : Heap) (base userSize : Nat) : Heap :=
  writeBytes (writeBytes h base SENTINEL_PATTERN)
    (base + SENTINEL_SIZE + userSize) SENTINEL_PATTERN

/-- The C helper `check_sentinels`: compare both guard regions against
the pattern; report the front one first and stop there, like the C code. -/
def check_sentinels (h : Heap) (a : Allocation) : List Diag :=
  if readBytes h a.realPtr SENTINEL_SIZE ≠ SENTINEL_PATTERN then
    [Diag.frontSentinelCorrupt a.userPtr]
  else if readBytes h (a.realPtr + SENTINEL_SIZE + a.requestedSize) SENTINEL_SIZE
      ≠ SENTINEL_PATTERN then
    [Diag.backSentinelCorrupt a.userPtr]
  else []

/-- Content-preserving move performed by the underlying C `realloc`:
the first `min oldTotal newTotal` bytes of the new region hold the old
region's bytes. -/
def reallocHeap (h : Heap) (oldBase oldTotal newBase newTotal : Nat) : Heap :=
  fun a =>
    if newBase ≤ a ∧ a < newBase + min oldTotal newTotal then
      h (oldBase + (a - newBase))
    else h a

/-- `debug_malloc` from the C source.  `sysPtr` is what the underlying
`malloc(totalSize)` returns, `nodeOk` whether the `Allocation` metadata
node can be allocated.  Note that the C code removes `realPtr` — not the
user pointer — from the freed ledger, and does so before the metadata
node is allocated. -/
def debug_malloc (st : TrackerState) (h : Heap) (size0 : Nat) (file : String)
    (line : Int) (sysPtr : Option Nat) (nodeOk : Bool) : OpResult :=
  let size := if size0 = 0 then 1 else size0
  let totalSize := size + 2 * SENTINEL_SIZE
  match sysPtr with
  | none => { ret := none, state := st, heap := h, diags := [], sysFrees := [] }
  | some realPtr =>
    let stA := { st with freed := remove_from_freed st.freed realPtr }
    if nodeOk then
      let h1 := write_sentinels h realPtr size
      let userPtr := realPtr + SENTINEL_SIZE
      let node : Allocation :=
        { realPtr := realPtr
          userPtr := userPtr
          requestedSize := size
          totalSize := totalSize
          file := file
          line := line }
      let stB := { stA with
        allocations := node :: stA.allocations
        allocationCount := stA.allocationCount + 1
        currentAllocated := stA.currentAllocated + size
        totalAllocated := stA.totalAllocated + size }
      let stC := { stB with
        peakAllocated :=
          if stB.peakAllocated < stB.currentAllocated then stB.currentAllocated
          else stB.peakAllocated }
      { ret := some userPtr
        state := stC
        heap := h1
        diags := []
        sysFrees := [] }
    else
      { ret := none, state := stA, heap := h, diags := [], sysFrees := [realPtr] }

/-- `debug_calloc` from the C source: overflow guard
`count && size > (size_t)(-1) / count`, then `debug_malloc` and `memset`. -/
def debug_calloc (st : TrackerState) (h : Heap) (count size : Nat) (file : String)
    (line : Int) (sysPtr : Option Nat) (nodeOk : Bool) : OpResult :=
  if count ≠ 0 ∧ SIZE_MAX / count < size then
    { ret := none
      state := st
      heap := h
      diags := [Diag.callocOverflow file line]
      sysFrees := [] }
  else
    let total := count * size
    let r := debug_malloc st h total file line sysPtr nodeOk
    match r.ret with
    | some ptr =>
      { ret := some ptr
        state := r.state
        heap := memset r.heap ptr 0 total
        diags := r.diags
        sysFrees := r.sysFrees }
    | none => r

/-- `debug_free` from the C source.  `freedNodeOk` is whether
`add_to_freed` manages to allocate its `Freed` node (on failure the C
helper silently skips the insertion). -/
def debug_free (st : TrackerState) (h : Heap) (ptr : Nat) (file : String)
    (line : Int) (freedNodeOk : Bool) : OpResult :=
  if ptr = 0 then
    { ret := none, state := st, heap := h, diags := [], sysFrees := [] }
  else if was_pointer_freed st.freed ptr then
    { ret := none
      state := st
      heap := h
      diags := [Diag.doubleFree ptr file line]
      sysFrees := [] }
  else
    match find_allocation st.allocations ptr with
    | none =>
      { ret := none
        state := st
        heap := h
        diags := [Diag.unknownFree ptr file line]
        sysFrees := [ptr] }
    | some cur =>
      let ds := check_sentinels h cur
      let stA := { st with
        allocations := remove_allocation st.allocations ptr
        allocationCount := st.allocationCount - 1
        currentAllocated := st.currentAllocated - cur.requestedSize
        freed := if freedNodeOk then ptr :: st.freed else st.freed }
      { ret := none
        state := stA
        heap := h
        diags := ds
        sysFrees := [cur.realPtr] }

/-- `debug_realloc` from the C source: `NULL` pointer acts as malloc,
zero size acts as free, unknown pointers fall through to the raw
`realloc`, and on allocator failure nothing is changed. -/
def debug_realloc (st : TrackerState) (h : Heap) (oldPtr newSize : Nat)
    (file : String) (line : Int) (o : SysOracle) : OpResult :=
  if oldPtr = 0 then
    debug_malloc st h newSize file line o.sysPtr o.nodeOk
  else if newSize = 0 then
    debug_free st h oldPtr file line o.freedNodeOk
  else
    match find_allocation st.allocations oldPtr with
    | none =>
      { ret := o.sysRealloc
        state := st
        heap := h
        diags := [Diag.unknownRealloc oldPtr file line]
        sysFrees := [] }
    | some cur =>
      let ds := check_sentinels h cur
      let oldSize := cur.requestedSize
      let newTotalSize := newSize + 2 * SENTINEL_SIZE
      match o.sysRealloc with
      | none =>
        { ret := none, state := st, heap := h, diags := ds, sysFrees := [] }
      | some newRealPtr =>
        let moved := reallocHeap h cur.realPtr cur.totalSize newRealPtr newTotalSize
        let newNode := { cur with
          realPtr := newRealPtr
          userPtr := newRealPtr + SENTINEL_SIZE
          totalSize := newTotalSize
          requestedSize := newSize }
        let h1 := write_sentinels moved newRealPtr newSize
        let stA := { st with
          allocations := update_allocation st.allocations oldPtr newNode
          currentAllocated := st.currentAllocated - oldSize + newSize
          totalAllocated :=
            if oldSize < newSize then st.totalAllocated + (newSize - oldSize)
            else st.totalAllocated }
        let stB := { stA with
          peakAllocated :=
            if stA.peakAllocated < stA.currentAllocated then stA.currentAllocated
            else stA.peakAllocated }
        { ret := some newNode.userPtr
          state := stB
          heap := h1
          diags := ds
          sysFrees := [] }

/-- `free_all_tracked` from the C source: empties both ledgers, zeroes
`g_allocationCount` and `g_currentAllocated`, and frees every tracked
real region.  The peak and cumulative counters are not touched by the C
code. -/
def free_all_tracked (st : TrackerState) (h : Heap) : OpResult :=
  { ret := none
    state := { st with
      allocations := []
      allocationCount := 0
      currentAllocated := 0
      freed := [] }
    heap := h
    diags := []
    sysFrees := st.allocations.map (fun a => a.realPtr) }

/-- Validity of an underlying `malloc` answer: a real allocator never
returns the null address and never returns the base address of a block
it still has outstanding. -/
def validSysPtr (st : TrackerState) : Option Nat → Bool
  | none => true
  | some r => r != 0 && st.allocations.all (fun a => a.realPtr != r)

/-- Validity of an underlying `realloc` answer for the block tracked
under `oldPtr`: never null, and never the base address of a different
outstanding block. -/
def validSysRealloc (st : TrackerState) (oldPtr : Nat) : Option Nat → Bool
  | none => true
  | some r => r != 0 && st.allocations.all (fun a => a.userPtr == oldPtr || a.realPtr != r)

/-- One public tracker operation, relating the state before to the state
after.  The oracle arguments range over all valid answers of the
underlying allocator; the report entry points (`log_memory_leaks`,
`log_memory_stats`, `get_memory_stats`) never mutate the state. -/
inductive Step : TrackerState → TrackerState → Prop where
  | malloc (st : TrackerState) (h : Heap) (size : Nat) (file : String) (line : Int)
      (sysPtr : Option Nat) (nodeOk : Bool) (hv : validSysPtr st sysPtr = true) :
      Step st (debug_malloc st h size file line sysPtr nodeOk).state
  | calloc (st : TrackerState) (h : Heap) (count size : Nat) (file : String) (line : Int)
      (sysPtr : Option Nat) (nodeOk : Bool) (hv : validSysPtr st sysPtr = true) :
      Step st (debug_calloc st h count size file line sysPtr nodeOk).state
  | realloc (st : TrackerState) (h : Heap) (oldPtr newSize : Nat) (file : String)
      (line : Int) (o : SysOracle) (hv : validSysPtr st o.sysPtr = true)
      (hv2 : validSysRealloc st oldPtr o.sysRealloc = true) :
      Step st (debug_realloc st h oldPtr newSize file line o).state
  | free (st : TrackerState) (h : Heap) (ptr : Nat) (file : String) (line : Int)
      (freedNodeOk : Bool) :
      Step st (debug_free st h ptr file line freedNodeOk).state
  | freeAll (st : TrackerState) (h : Heap) :
      Step st (free_all_tracked st h).state
  | report (st : TrackerState) : Step st st

/-- States the tracker can be in after any sequence of operations
starting from program start. -/
inductive Reachable : TrackerState → Prop where
  | init : Reachable initState
  | step {st st' : TrackerState} : Reachable st → Step st st' → Reachable st'

/-- A sample call-site file name. -/
def fA : String := "demo.c"

/-- A sample initial heap with no byte equal to zero. -/
def h0 : Heap := fun _ => 37

/-- State after one `debug_malloc(1)` answered with raw address 96. -/
def st1 : TrackerState := (debug_malloc initState h0 1 fA 10 (some 96) true).state

/-- State after additionally releasing the returned user pointer 104. -/
def st2 : TrackerState := (debug_free st1 h0 104 fA 11 true).state

/-- State after a further `debug_malloc(1)` answered with the reused raw
address 96. -/
def st3 : TrackerState := (debug_malloc st2 h0 1 fA 12 (some 96) true).state

/-- The inductive invariant of the tracker: the peak counter dominates
the current counter, the null pointer is never recorded as freed, live
user pointers are pairwise distinct, and every record satisfies the
`userPtr = realPtr + SENTINEL_SIZE` layout equation. -/
def TrackerInv (st : TrackerState) : Prop :=
  st.currentAllocated ≤ st.peakAllocated ∧
  (0 : Nat) ∉ st.freed ∧
  (st.allocations.map (fun a => a.userPtr)).Nodup ∧
  ∀ a ∈ st.allocations, a.userPtr = a.realPtr + SENTINEL_SIZE

/-- The allocation record held in `st1`. -/
def curA : Allocation :=
  { realPtr := 96
    userPtr := 104
    requestedSize := 1
    totalSize := 17
    file := fA
    line := 10 }

/-- An oracle whose underlying `realloc` reports out of memory. -/
def oFail : SysOracle :=
  { sysPtr := none, nodeOk := true, freedNodeOk := true, sysRealloc := none }

theorem reachable_st1 : Reachable st1 :=
  Reachable.step Reachable.init (Step.malloc initState h0 1 fA 10 (some 96) true (by decide))

theorem reachable_st2 : Reachable st2 :=
  Reachable.step reachable_st1 (Step.free st1 h0 104 fA 11 true)

theorem reachable_st3 : Reachable st3 :=
  Reachable.step reachable_st2 (Step.malloc st2 h0 1 fA 12 (some 96) true (by decide))


/-! Basic lemmas about the list helpers. -/

theorem mem_remove_from_freed {l : List Nat} {p x : Nat}
    (hx : x ∈ remove_from_freed l p) : x ∈ l := by
  induction l with
  | nil => simp [remove_from_freed] at hx
  | cons y rest ih =>
    by_cases hy : y = p
    · rw [remove_from_freed, if_pos hy] at hx
      exact List.mem_cons_of_mem _ hx
    · rw [remove_from_freed, if_neg hy] at hx
      rcases List.mem_cons.mp hx with rfl | hx
      · exact List.mem_cons_self _ _
      · exact List.mem_cons_of_mem _ (ih hx)

theorem remove_from_freed_of_not_mem {l : List Nat} {p : Nat} (h : p ∉ l) :
    remove_from_freed l p = l := by
  induction l with
  | nil => rfl
  | cons y rest ih =>
    simp only [List.mem_cons, not_or] at h
    rw [remove_from_freed, if_neg (fun hy => h.1 hy.symm), ih h.2]

theorem was_pointer_freed_iff {l : List Nat} {p : Nat} :
    was_pointer_freed l p = true ↔ p ∈ l := by
  induction l with
  | nil => simp [was_pointer_freed]
  | cons y rest ih =>
    by_cases hy : y = p
    · simp [was_pointer_freed, hy]
    · rw [was_pointer_freed, if_neg hy, ih, List.mem_cons]
      exact ⟨Or.inr, fun h => h.resolve_left (fun hpy => hy hpy.symm)⟩

theorem find_allocation_mem {l : List Allocation} {p : Nat} {a : Allocation}
    (h : find_allocation l p = some a) : a ∈ l ∧ a.userPtr = p := by
  induction l with
  | nil => simp [find_allocation] at h
  | cons b rest ih =>
    by_cases hb : b.userPtr = p
    · rw [find_allocation, if_pos hb] at h
      injection h with h
      subst h
      exact ⟨List.mem_cons_self _ _, hb⟩
    · rw [find_allocation, if_neg hb] at h
      obtain ⟨hmem, hp⟩ := ih h
      exact ⟨List.mem_cons_of_mem _ hmem, hp⟩

theorem find_allocation_eq_none {l : List Allocation} {p : Nat}
    (h : ∀ a ∈ l, a.userPtr ≠ p) : find_allocation l p = none := by
  induction l with
  | nil => rfl
  | cons b rest ih =>
    rw [find_allocation, if_neg (h b (List.mem_cons_self _ _))]
    exact ih (fun a ha => h a (List.mem_cons_of_mem _ ha))

theorem remove_allocation_sublist (l : List Allocation) (p : Nat) :
    (remove_allocation l p).Sublist l := by
  induction l with
  | nil => simp [remove_allocation]
  | cons b rest ih =>
    rw [remove_allocation]
    split
    · exact List.sublist_cons_self b rest
    · exact ih.cons₂ b

theorem mem_remove_allocation {l : List Allocation} {p : Nat} {a : Allocation}
    (h : a ∈ remove_allocation l p) : a ∈ l :=
  (remove_allocation_sublist l p).subset h

theorem mem_update_allocation {l : List Allocation} {p : Nat} {b x : Allocation}
    (h : x ∈ update_allocation l p b) : x = b ∨ x ∈ l := by
  induction l with
  | nil => simp [update_allocation] at h
  | cons a rest ih =>
    rw [update_allocation] at h
    split at h
    · rcases List.mem_cons.mp h with rfl | h
      · exact Or.inl rfl
      · exact Or.inr (List.mem_cons_of_mem _ h)
    · rcases List.mem_cons.mp h with rfl | h
      · exact Or.inr (List.mem_cons_self _ _)
      · rcases ih h with h | h
        · exact Or.inl h
        · exact Or.inr (List.mem_cons_of_mem _ h)

theorem nodup_update_allocation {l : List Allocation} {p : Nat} {b : Allocation}
    (hn : (l.map (fun a => a.userPtr)).Nodup)
    (hb : ∀ a ∈ l, a.userPtr ≠ p → a.userPtr ≠ b.userPtr) :
    ((update_allocation l p b).map (fun a => a.userPtr)).Nodup := by
  induction l with
  | nil => simp [update_allocation]
  | cons a rest ih =>
    rw [update_allocation]
    split
    case isTrue hap =>
      simp only [List.map_cons, List.nodup_cons] at hn ⊢
      refine ⟨?_, hn.2⟩
      intro hmem
      obtain ⟨c, hc, hcb⟩ := List.mem_map.mp hmem
      have hcp : c.userPtr ≠ p := by
        intro hcp
        exact hn.1 (List.mem_map.mpr ⟨c, hc, by rw [hcp, hap]⟩)
      exact hb c (List.mem_cons_of_mem _ hc) hcp hcb
    case isFalse hap =>
      simp only [List.map_cons, List.nodup_cons] at hn ⊢
      refine ⟨?_, ih hn.2 (fun c hc => hb c (List.mem_cons_of_mem _ hc))⟩
      intro hmem
      obtain ⟨c, hc, hca⟩ := List.mem_map.mp hmem
      rcases mem_update_allocation hc with rfl | hcrest
      · exact hb a (List.mem_cons_self _ _) hap hca.symm
      · exact hn.1 (List.mem_map.mpr ⟨c, hcrest, hca⟩)

theorem find_remove_allocation {l : List Allocation} {p : Nat}
    (hn : (l.map (fun a => a.userPtr)).Nodup) :
    find_allocation (remove_allocation l p) p = none := by
  induction l with
  | nil => rfl
  | cons a rest ih =>
    rw [remove_allocation]
    split
    case isTrue hap =>
      apply find_allocation_eq_none
      intro c hc hcp
      simp only [List.map_cons, List.nodup_cons] at hn
      exact hn.1 (List.mem_map.mpr ⟨c, hc, by rw [hcp, hap]⟩)
    case isFalse hap =>
      rw [find_allocation, if_neg hap]
      simp only [List.map_cons, List.nodup_cons] at hn
      exact ih hn.2

theorem validSysPtr_some {st : TrackerState} {r : Nat}
    (hv : validSysPtr st (some r) = true) :
    r ≠ 0 ∧ ∀ a ∈ st.allocations, a.realPtr ≠ r := by
  simp only [validSysPtr, Bool.and_eq_true, bne_iff_ne, ne_eq, List.all_eq_true] at hv
  exact ⟨hv.1, fun a ha => hv.2 a ha⟩

theorem validSysRealloc_some {st : TrackerState} {oldPtr r : Nat}
    (hv : validSysRealloc st oldPtr (some r) = true) :
    r ≠ 0 ∧ ∀ a ∈ st.allocations, a.userPtr ≠ oldPtr → a.realPtr ≠ r := by
  simp only [validSysRealloc, Bool.and_eq_true, bne_iff_ne, ne_eq, List.all_eq_true,
    Bool.or_eq_true, beq_iff_eq] at hv
  refine ⟨hv.1, fun a ha hne => ?_⟩
  rcases hv.2 a ha with h | h
  · exact absurd h hne
  · exact h

theorem inv_malloc {st : TrackerState} (h : Heap) (size0 : Nat) (file : String)
    (line : Int) {sysPtr : Option Nat} (nodeOk : Bool)
    (hv : validSysPtr st sysPtr = true) (hi : TrackerInv st) :
    TrackerInv (debug_malloc st h size0 file line sysPtr nodeOk).state := by
  obtain ⟨hA, hB, hC, hD⟩ := hi
  cases sysPtr with
  | none => exact ⟨hA, hB, hC, hD⟩
  | some r =>
    obtain ⟨hr0, hall⟩ := validSysPtr_some hv
    cases nodeOk with
    | false => exact ⟨hA, fun hm => hB (mem_remove_from_freed hm), hC, hD⟩
    | true =>
      simp only [TrackerInv, debug_malloc, if_true, List.map_cons, List.nodup_cons]
      refine ⟨?_, fun hm => hB (mem_remove_from_freed hm), ⟨?_, hC⟩, ?_⟩
      · repeat' split
        all_goals omega
      · intro hmem
        obtain ⟨c, hc, hcu⟩ := List.mem_map.mp hmem
        have hlay := hD c hc
        exact hall c hc (by omega)
      · intro a ha
        rcases List.mem_cons.mp ha with rfl | ha
        · rfl
        · exact hD a ha

theorem inv_free {st : TrackerState} (h : Heap) (ptr : Nat) (file : String)
    (line : Int) (ok : Bool) (hi : TrackerInv st) :
    TrackerInv (debug_free st h ptr file line ok).state := by
  obtain ⟨hA, hB, hC, hD⟩ := hi
  by_cases hp : ptr = 0
  · simp only [debug_free, if_pos hp]
    exact ⟨hA, hB, hC, hD⟩
  · simp only [debug_free, if_neg hp]
    by_cases hw : was_pointer_freed st.freed ptr = true
    · rw [if_pos hw]
      exact ⟨hA, hB, hC, hD⟩
    · rw [if_neg hw]
      cases hfind : find_allocation st.allocations ptr with
      | none => exact ⟨hA, hB, hC, hD⟩
      | some cur =>
        refine ⟨le_trans (Nat.sub_le _ _) hA, ?_,
          hC.sublist ((remove_allocation_sublist st.allocations ptr).map _),
          fun a ha => hD a (mem_remove_allocation ha)⟩
        cases ok with
        | true =>
          intro hm
          rcases List.mem_cons.mp hm with h0 | h0
          · exact hp h0.symm
          · exact hB h0
        | false => exact hB

theorem inv_realloc {st : TrackerState} (h : Heap) (oldPtr newSize : Nat)
    (file : String) (line : Int) (o : SysOracle)
    (hv : validSysPtr st o.sysPtr = true)
    (hv2 : validSysRealloc st oldPtr o.sysRealloc = true) (hi : TrackerInv st) :
    TrackerInv (debug_realloc st h oldPtr newSize file line o).state := by
  by_cases hp : oldPtr = 0
  · simp only [debug_realloc, if_pos hp]
    exact inv_malloc h newSize file line o.nodeOk hv hi
  · by_cases hz : newSize = 0
    · simp only [debug_realloc, if_neg hp, if_pos hz]
      exact inv_free h oldPtr file line o.freedNodeOk hi
    · obtain ⟨hA, hB, hC, hD⟩ := hi
      cases hfind : find_allocation st.allocations oldPtr with
      | none =>
        simp only [debug_realloc, if_neg hp, if_neg hz, hfind]
        exact ⟨hA, hB, hC, hD⟩
      | some cur =>
        cases hre : o.sysRealloc with
        | none =>
          simp only [debug_realloc, if_neg hp, if_neg hz, hfind, hre]
          exact ⟨hA, hB, hC, hD⟩
        | some r =>
          rw [hre] at hv2
          obtain ⟨hr0, hall⟩ := validSysRealloc_some hv2
          simp only [TrackerInv, debug_realloc, if_neg hp, if_neg hz, hfind, hre]
          refine ⟨?_, hB, ?_, ?_⟩
          · repeat' split
            all_goals omega
          · refine nodup_update_allocation hC ?_
            intro a ha hne
            have hlay := hD a ha
            have hreal := hall a ha hne
            show a.userPtr ≠ r + SENTINEL_SIZE
            omega
          · intro a ha
            rcases mem_update_allocation ha with rfl | hmem
            · rfl
            · exact hD a hmem

theorem inv_calloc {st : TrackerState} (h : Heap) (count size : Nat) (file : String)
    (line : Int) {sysPtr : Option Nat} (nodeOk : Bool)
    (hv : validSysPtr st sysPtr = true) (hi : TrackerInv st) :
    TrackerInv (debug_calloc st h count size file line sysPtr nodeOk).state := by
  by_cases hov : count ≠ 0 ∧ SIZE_MAX / count < size
  · simp only [debug_calloc, if_pos hov]
    exact hi
  · simp only [debug_calloc, if_neg hov]
    cases hr : (debug_malloc st h (count * size) file line sysPtr nodeOk).ret with
    | some ptr =>
      simp only [hr]
      exact inv_malloc h (count * size) file line nodeOk hv hi
    | none =>
      simp only [hr]
      exact inv_malloc h (count * size) file line nodeOk hv hi

theorem inv_freeAll {st : TrackerState} (h : Heap) (_hi : TrackerInv st) :
    TrackerInv (free_all_tracked st h).state :=
  ⟨Nat.zero_le _, List.not_mem_nil 0, List.nodup_nil,
    fun a ha => absurd ha (List.not_mem_nil a)⟩

theorem inv_step {st st' : TrackerState} (hi : TrackerInv st) (hs : Step st st') :
    TrackerInv st' := by
  cases hs with
  | malloc h size file line sysPtr nodeOk hv =>
    exact inv_malloc h size file line nodeOk hv hi
  | calloc h count size file line sysPtr nodeOk hv =>
    exact inv_calloc h count size file line nodeOk hv hi
  | realloc h oldPtr newSize file line o hv hv2 =>
    exact inv_realloc h oldPtr newSize file line o hv hv2 hi
  | free h ptr file line ok =>
    exact inv_free h ptr file line ok hi
  | freeAll h => exact inv_freeAll h hi
  | report => exact hi

theorem reachable_inv {st : TrackerState} (hr : Reachable st) : TrackerInv st := by
  induction hr with
  | init =>
    exact ⟨Nat.le_refl 0, List.not_mem_nil 0, List.nodup_nil,
      fun a ha => absurd ha (List.not_mem_nil a)⟩
  | step hr hs ih => exact inv_step ih hs

theorem peak_le_malloc (st : TrackerState) (h : Heap) (size0 : Nat) (file : String)
    (line : Int) (sysPtr : Option Nat) (nodeOk : Bool) :
    st.peakAllocated ≤ (debug_malloc st h size0 file line sysPtr nodeOk).state.peakAllocated := by
  cases sysPtr with
  | none => exact Nat.le_refl _
  | some r =>
    cases nodeOk with
    | false => exact Nat.le_refl _
    | true =>
      simp only [debug_malloc, if_true]
      repeat' split
      all_goals omega

theorem peak_eq_free (st : TrackerState) (h : Heap) (ptr : Nat) (file : String)
    (line : Int) (ok : Bool) :
    (debug_free st h ptr file line ok).state.peakAllocated = st.peakAllocated := by
  by_cases hp : ptr = 0
  · simp only [debug_free, if_pos hp]
  · simp only [debug_free, if_neg hp]
    by_cases hw : was_pointer_freed st.freed ptr = true
    · rw [if_pos hw]
    · rw [if_neg hw]
      cases hfind : find_allocation st.allocations ptr with
      | none => rfl
      | some cur => rfl

theorem peak_le_realloc (st : TrackerState) (h : Heap) (oldPtr newSize : Nat)
    (file : String) (line : Int) (o : SysOracle) :
    st.peakAllocated ≤ (debug_realloc st h oldPtr newSize file line o).state.peakAllocated := by
  by_cases hp : oldPtr = 0
  · simp only [debug_realloc, if_pos hp]
    exact peak_le_malloc st h newSize file line o.sysPtr o.nodeOk
  · by_cases hz : newSize = 0
    · simp only [debug_realloc, if_neg hp, if_pos hz, peak_eq_free]
      exact Nat.le_refl _
    · cases hfind : find_allocation st.allocations oldPtr with
      | none =>
        simp only [debug_realloc, if_neg hp, if_neg hz, hfind]
        exact Nat.le_refl _
      | some cur =>
        cases hre : o.sysRealloc with
        | none =>
          simp only [debug_realloc, if_neg hp, if_neg hz, hfind, hre]
          exact Nat.le_refl _
        | some r =>
          simp only [debug_realloc, if_neg hp, if_neg hz, hfind, hre]
          repeat' split
          all_goals omega

theorem peak_le_calloc (st : TrackerState) (h : Heap) (count size : Nat)
    (file : String) (line : Int) (sysPtr : Option Nat) (nodeOk : Bool) :
    st.peakAllocated ≤ (debug_calloc st h count size file line sysPtr nodeOk).state.peakAllocated := by
  by_cases hov : count ≠ 0 ∧ SIZE_MAX / count < size
  · simp only [debug_calloc, if_pos hov]
    exact Nat.le_refl _
  · simp only [debug_calloc, if_neg hov]
    cases hr : (debug_malloc st h (count * size) file line sysPtr nodeOk).ret with
    | some ptr =>
      simp only [hr]
      exact peak_le_malloc st h (count * size) file line sysPtr nodeOk
    | none =>
      simp only [hr]
      exact peak_le_malloc st h (count * size) file line sysPtr nodeOk

theorem peak_le_step {st st' : TrackerState} (hs : Step st st') :
    st.peakAllocated ≤ st'.peakAllocated := by
  cases hs with
  | malloc h size file line sysPtr nodeOk hv =>
    exact peak_le_malloc st h size file line sysPtr nodeOk
  | calloc h count size file line sysPtr nodeOk hv =>
    exact peak_le_calloc st h count size file line sysPtr nodeOk
  | realloc h oldPtr newSize file line o hv hv2 =>
    exact peak_le_realloc st h oldPtr newSize file line o
  | free h ptr file line ok =>
    exact Nat.le_of_eq (peak_eq_free st h ptr file line ok).symm
  | freeAll h => exact Nat.le_refl _
  | report => exact Nat.le_refl _

/-- C2 (counterexample): after one allocation of one byte, `free_all_tracked`
leaves `peakAllocated` and `totalAllocated` at 1, so it is false that all four
counters are zero afterwards. -/
theorem C2_releaseAll_counterexample :
    Reachable st1 ∧
    ¬((free_all_tracked st1 h0).state.peakAllocated = 0 ∧
      (free_all_tracked st1 h0).state.totalAllocated = 0) :=
  ⟨reachable_st1, by decide⟩

/-- C2 (amended): after `free_all_tracked` both ledgers are empty and
`currentAllocated` and `allocationCount` are zero, while `peakAllocated` and
`totalAllocated` keep their previous values. -/
theorem C2_releaseAll_clears (st : TrackerState) (h : Heap) :
    (free_all_tracked st h).state.allocations = [] ∧
    (free_all_tracked st h).state.freed = [] ∧
    get_memory_stats (free_all_tracked st h).state =
      { totalAllocated := st.totalAllocated
        currentAllocated := 0
        peakAllocated := st.peakAllocated
        allocationCount := 0 } :=
  ⟨rfl, rfl, rfl⟩

/-- C3: in every reachable tracker state the peak counter dominates the current
counter, and no operation ever decreases the peak counter. -/
theorem C3_peak_monotone_and_dominates (st : TrackerState) (hr : Reachable st) :
    st.currentAllocated ≤ st.peakAllocated ∧
    ∀ st', Step st st' → st.peakAllocated ≤ st'.peakAllocated :=
  ⟨(reachable_inv hr).1, fun _ hs => peak_le_step hs⟩

/-- C3 witness at the initial state and its first allocation step. -/
theorem C3_peak_witness :
    initState.currentAllocated ≤ initState.peakAllocated ∧
    initState.peakAllocated ≤ st1.peakAllocated :=
  ⟨(C3_peak_monotone_and_dominates initState Reachable.init).1,
   (C3_peak_monotone_and_dominates initState Reachable.init).2 st1
     (Step.malloc initState h0 1 fA 10 (some 96) true (by decide))⟩

/-- C6: releasing a pointer recorded in the freed ledger of a reachable state
emits exactly one double-free diagnostic and performs no underlying free, no
ledger change and no counter change. -/
theorem C6_double_release_is_noop (st : TrackerState) (h : Heap) (p : Nat)
    (file : String) (line : Int) (ok : Bool) (hr : Reachable st)
    (hmem : p ∈ st.freed) :
    debug_free st h p file line ok =
      { ret := none, state := st, heap := h,
        diags := [Diag.doubleFree p file line], sysFrees := [] } := by
  have hp : p ≠ 0 := fun h0 => (reachable_inv hr).2.1 (h0 ▸ hmem)
  have hw : was_pointer_freed st.freed p = true := was_pointer_freed_iff.mpr hmem
  simp only [debug_free, if_neg hp, hw, if_true]

/-- C6 witness: a concrete double release of pointer 104. -/
theorem C6_double_release_witness :
    debug_free st2 h0 104 fA 20 true =
      { ret := none, state := st2, heap := h0,
        diags := [Diag.doubleFree 104 fA 20], sysFrees := [] } :=
  C6_double_release_is_noop st2 h0 104 fA 20 true reachable_st2 (by decide)

/-- C8: releasing a non-null pointer recorded in neither ledger emits a warning
diagnostic and forwards the pointer to the underlying free while leaving the
tracker state unchanged. -/
theorem C8_unknown_release_passthrough (st : TrackerState) (h : Heap) (p : Nat)
    (file : String) (line : Int) (ok : Bool) (hp : p ≠ 0)
    (hnf : was_pointer_freed st.freed p = false)
    (hfind : find_allocation st.allocations p = none) :
    debug_free st h p file line ok =
      { ret := none, state := st, heap := h,
        diags := [Diag.unknownFree p file line], sysFrees := [p] } := by
  simp only [debug_free, if_neg hp, hnf, Bool.false_eq_true, if_false, hfind]

/-- C8 witness: releasing the never-issued pointer 5 in the initial state. -/
theorem C8_unknown_release_witness :
    debug_free initState h0 5 fA 30 true =
      { ret := none, state := initState, heap := h0,
        diags := [Diag.unknownFree 5 fA 30], sysFrees := [5] } :=
  C8_unknown_release_passthrough initState h0 5 fA 30 true (by decide) (by decide) rfl

/-- The overflow guard of `debug_calloc` fires exactly when the product
`count * size` does not fit in `size_t`. -/
theorem calloc_guard_iff (count size : Nat) :
    (count ≠ 0 ∧ SIZE_MAX / count < size) ↔ SIZE_MAX < count * size := by
  constructor
  · rintro ⟨hc, hlt⟩
    have hm := (Nat.div_lt_iff_lt_mul (Nat.pos_of_ne_zero hc)).mp hlt
    exact Nat.mul_comm size count ▸ hm
  · intro hlt
    have hc : count ≠ 0 := by
      rintro rfl
      simp [SIZE_MAX] at hlt
    refine ⟨hc, (Nat.div_lt_iff_lt_mul (Nat.pos_of_ne_zero hc)).mpr ?_⟩
    exact Nat.mul_comm count size ▸ hlt

/-- C4: `debug_calloc` fails with an overflow diagnostic and changes nothing
whenever `count * size` exceeds `SIZE_MAX`, independently of the allocator
oracle; otherwise it returns, updates state and frees exactly as a
`debug_malloc` of `count * size` bytes. -/
theorem C4_calloc_overflow (st : TrackerState) (h : Heap) (count size : Nat)
    (file : String) (line : Int) (sysPtr : Option Nat) (nodeOk : Bool) :
    (SIZE_MAX < count * size →
      debug_calloc st h count size file line sysPtr nodeOk =
        { ret := none, state := st, heap := h,
          diags := [Diag.callocOverflow file line], sysFrees := [] }) ∧
    (count * size ≤ SIZE_MAX →
      (debug_calloc st h count size file line sysPtr nodeOk).ret =
        (debug_malloc st h (count * size) file line sysPtr nodeOk).ret ∧
      (debug_calloc st h count size file line sysPtr nodeOk).state =
        (debug_malloc st h (count * size) file line sysPtr nodeOk).state ∧
      (debug_calloc st h count size file line sysPtr nodeOk).sysFrees =
        (debug_malloc st h (count * size) file line sysPtr nodeOk).sysFrees) := by
  constructor
  · intro hov
    have hg := (calloc_guard_iff count size).mpr hov
    simp only [debug_calloc, if_pos hg]
  · intro hle
    have hg : ¬(count ≠ 0 ∧ SIZE_MAX / count < size) := by
      rw [calloc_guard_iff]
      omega
    simp only [debug_calloc, if_neg hg]
    cases hr : (debug_malloc st h (count * size) file line sysPtr nodeOk).ret with
    | some ptr =>
      simp only [hr]
      exact ⟨trivial, trivial, trivial⟩
    | none =>
      simp only [hr]
      exact ⟨trivial, trivial, trivial⟩

/-- C4 witness: the spec scenario `count = SIZE_MAX, size = 2` fails with the
overflow diagnostic, and a small in-range request agrees with the
corresponding `debug_malloc`. -/
theorem C4_calloc_overflow_witness :
    debug_calloc initState h0 SIZE_MAX 2 fA 40 (some 96) true =
      { ret := none, state := initState, heap := h0,
        diags := [Diag.callocOverflow fA 40], sysFrees := [] } ∧
    (debug_calloc initState h0 2 3 fA 41 (some 96) true).ret =
      (debug_malloc initState h0 (2 * 3) fA 41 (some 96) true).ret :=
  ⟨(C4_calloc_overflow initState h0 SIZE_MAX 2 fA 40 (some 96) true).1 (by decide),
   ((C4_calloc_overflow initState h0 2 3 fA 41 (some 96) true).2 (by decide)).1⟩

/-- C5: when the underlying realloc fails on a tracked pointer, `debug_realloc`
returns null and the tracker state (its record for the pointer and all four
counters), the heap and the set of underlying frees are untouched. -/
theorem C5_realloc_failure_frame (st : TrackerState) (h : Heap) (p newSize : Nat)
    (file : String) (line : Int) (o : SysOracle) (cur : Allocation)
    (hp : p ≠ 0) (hz : newSize ≠ 0)
    (hfind : find_allocation st.allocations p = some cur)
    (hfail : o.sysRealloc = none) :
    (debug_realloc st h p newSize file line o).ret = none ∧
    (debug_realloc st h p newSize file line o).state = st ∧
    (debug_realloc st h p newSize file line o).heap = h ∧
    (debug_realloc st h p newSize file line o).sysFrees = [] := by
  simp only [debug_realloc, if_neg hp, if_neg hz, hfind, hfail]
  exact ⟨trivial, trivial, trivial, trivial⟩

/-- C5 witness: a failing resize of the tracked pointer 104 leaves `st1`
unchanged. -/
theorem C5_realloc_failure_witness :
    (debug_realloc st1 h0 104 5 fA 50 oFail).ret = none ∧
    (debug_realloc st1 h0 104 5 fA 50 oFail).state = st1 :=
  ⟨(C5_realloc_failure_frame st1 h0 104 5 fA 50 oFail curA (by decide) (by decide)
      rfl rfl).1,
   (C5_realloc_failure_frame st1 h0 104 5 fA 50 oFail curA (by decide) (by decide)
      rfl rfl).2.1⟩

/-- C7 (counterexample): resizing the untracked non-null pointer 5 to size 0
returns null but does not leave 5 recorded in the freed ledger, so the claim
that after `resize(p, 0)` the pointer is always present in the freed ledger is
false. -/
theorem C7_resize_zero_counterexample :
    (debug_realloc initState h0 5 0 fA 60 oFail).ret = none ∧
    5 ∉ (debug_realloc initState h0 5 0 fA 60 oFail).state.freed :=
  ⟨by decide, by decide⟩

/-- C7 (amended): for every non-null pointer, `debug_realloc` with size 0 is
the very same operation as `debug_free` (same return, state, heap,
diagnostics and underlying frees); when additionally the pointer is tracked,
not yet freed, and the freed-node allocation succeeds, it ends up absent from
the allocation ledger and present in the freed ledger. -/
theorem C7_resize_zero_equals_release (st : TrackerState) (h : Heap) (p : Nat)
    (file : String) (line : Int) (o : SysOracle) (hp : p ≠ 0) :
    debug_realloc st h p 0 file line o = debug_free st h p file line o.freedNodeOk ∧
    (Reachable st → p ∉ st.freed → (find_allocation st.allocations p).isSome = true →
      o.freedNodeOk = true →
      find_allocation (debug_realloc st h p 0 file line o).state.allocations p = none ∧
      p ∈ (debug_realloc st h p 0 file line o).state.freed) := by
  have heq : debug_realloc st h p 0 file line o = debug_free st h p file line o.freedNodeOk := by
    simp only [debug_realloc, if_neg hp, if_true]
  refine ⟨heq, ?_⟩
  intro hr hnf hfs hok
  rw [heq]
  obtain ⟨cur, hcur⟩ := Option.isSome_iff_exists.mp hfs
  have hw : was_pointer_freed st.freed p = false := by
    cases hwb : was_pointer_freed st.freed p with
    | false => rfl
    | true => exact absurd (was_pointer_freed_iff.mp hwb) hnf
  have hnodup := (reachable_inv hr).2.2.1
  simp only [debug_free, if_neg hp, hw, Bool.false_eq_true, if_false, hcur, hok, if_true]
  exact ⟨find_remove_allocation hnodup, List.mem_cons_self p st.freed⟩

/-- C7 witness: resizing the tracked pointer 104 to 0 equals releasing it, and
104 moves from the allocation ledger to the freed ledger. -/
theorem C7_resize_zero_witness :
    debug_realloc st1 h0 104 0 fA 61 oFail = debug_free st1 h0 104 fA 61 true ∧
    find_allocation (debug_realloc st1 h0 104 0 fA 61 oFail).state.allocations 104 = none ∧
    104 ∈ (debug_realloc st1 h0 104 0 fA 61 oFail).state.freed :=
  ⟨(C7_resize_zero_equals_release st1 h0 104 fA 61 oFail (by decide)).1,
   (C7_resize_zero_equals_release st1 h0 104 fA 61 oFail (by decide)).2
     reachable_st1 (by decide) (by decide) rfl⟩

/-- C9: whenever `debug_calloc` returns a pointer, all `count * size` bytes of
the returned user region read as zero in the resulting heap. -/
theorem C9_calloc_zero_fill (st : TrackerState) (h : Heap) (count size : Nat)
    (file : String) (line : Int) (sysPtr : Option Nat) (nodeOk : Bool) (p : Nat)
    (hret : (debug_calloc st h count size file line sysPtr nodeOk).ret = some p) :
    ∀ i, i < count * size →
      (debug_calloc st h count size file line sysPtr nodeOk).heap (p + i) = 0 := by
  intro i hi
  by_cases hov : count ≠ 0 ∧ SIZE_MAX / count < size
  · simp only [debug_calloc, if_pos hov] at hret
    exact absurd hret (by simp)
  · simp only [debug_calloc, if_neg hov] at hret ⊢
    cases hq : (debug_malloc st h (count * size) file line sysPtr nodeOk).ret with
    | none =>
      rw [hq] at hret
      have hret2 : (debug_malloc st h (count * size) file line sysPtr nodeOk).ret = some p := hret
      rw [hq] at hret2
      exact Option.noConfusion hret2
    | some q =>
      rw [hq] at hret
      have hret2 : some q = some p := hret
      obtain rfl : q = p := by injection hret2
      show memset (debug_malloc st h (count * size) file line sysPtr nodeOk).heap q 0
        (count * size) (q + i) = 0
      simp only [memset]
      rw [if_pos ⟨Nat.le_add_right q i, by omega⟩]

/-- C9 witness: `calloc(2, 3)` over a heap of non-zero bytes returns pointer
104 and byte 4 of the user region reads zero. -/
theorem C9_calloc_zero_fill_witness :
    (debug_calloc initState h0 2 3 fA 70 (some 96) true).ret = some 104 ∧
    (debug_calloc initState h0 2 3 fA 70 (some 96) true).heap (104 + 4) = 0 :=
  ⟨rfl, C9_calloc_zero_fill initState h0 2 3 fA 70 (some 96) true 104 rfl 4 (by decide)⟩

/-- C10 (counterexample): in the reachable state `st2` the freed ledger holds
104; if the underlying malloc returns 104 and the metadata-node allocation
then fails, `debug_malloc` returns null but has already deleted 104 from the
freed ledger, so the claim that both ledgers are unchanged is false. -/
theorem C10_metadata_failure_counterexample :
    Reachable st2 ∧ st2.freed = [104] ∧
    (debug_malloc st2 h0 1 fA 80 (some 104) false).ret = none ∧
    (debug_malloc st2 h0 1 fA 80 (some 104) false).state.freed = [] ∧
    (debug_malloc st2 h0 1 fA 80 (some 104) false).state ≠ st2 :=
  ⟨reachable_st2, by decide, by decide, by decide, by decide⟩

/-- C10 (amended): when the metadata-node allocation fails after the
underlying malloc succeeded at address `r`, `debug_malloc` returns null,
frees `r` back to the underlying allocator, and leaves the allocation ledger
and all four counters unchanged; the freed ledger is unchanged except that an
entry equal to `r`, if present, has already been removed — in particular the
whole state is unchanged whenever `r` is not in the freed ledger. -/
theorem C10_metadata_failure_frame (st : TrackerState) (h : Heap) (size0 : Nat)
    (file : String) (line : Int) (r : Nat) :
    debug_malloc st h size0 file line (some r) false =
      { ret := none
        state := { st with freed := remove_from_freed st.freed r }
        heap := h
        diags := []
        sysFrees := [r] } ∧
    (r ∉ st.freed → (debug_malloc st h size0 file line (some r) false).state = st) := by
  constructor
  · rfl
  · intro hnm
    show ({ st with freed := remove_from_freed st.freed r } : TrackerState) = st
    rw [remove_from_freed_of_not_mem hnm]

/-- C10 witness: a metadata failure in the initial state frees the padded
region and leaves the state unchanged. -/
theorem C10_metadata_failure_witness :
    debug_malloc initState h0 7 fA 81 (some 96) false =
      { ret := none
        state := { initState with freed := remove_from_freed initState.freed 96 }
        heap := h0
        diags := []
        sysFrees := [96] } ∧
    (debug_malloc initState h0 7 fA 81 (some 96) false).state = initState :=
  ⟨(C10_metadata_failure_frame initState h0 7 fA 81 96).1,
   (C10_metadata_failure_frame initState h0 7 fA 81 96).2 (by decide)⟩

/-- C1: the reuse fix of `debug_malloc` removes the raw base address instead
of the user pointer from the freed ledger, so after the reachable run
malloc(1) at base 96, free(104), malloc(1) reusing base 96, the returned user
pointer 104 is simultaneously recorded in the freed ledger and live in the
allocation ledger — the disjointness invariant claimed by the spec fails. -/
theorem C1_reuse_leaves_stale_freed_entry :
    Reachable st3 ∧
    (debug_malloc st2 h0 1 fA 12 (some 96) true).ret = some 104 ∧
    104 ∈ st3.freed ∧
    (find_allocation st3.allocations 104).isSome = true :=
  ⟨reachable_st3, by decide, by decide, by decide⟩
